import Mathlib

/-
Verification development for the auth-service repository: a shallow
embedding of the storage layer (file-backed realization in
internal/app/storage/file.go, PostgreSQL realization in the db storage
file) and of the refresh/logout HTTP handlers from cmd/auth/main.go,
together with proofs about the refresh-token lifecycle.

Times are modelled as integers; time.Now().After(t) becomes t < now.
Go maps become association lists with single-binding lookup and
replace-or-append assignment. Fallible byte-level effects (the users
file handle being nil, a failed buffered write, a failed SQL Exec) are
modelled by explicit boolean parameters.
-/

namespace AuthService

/-- User mirrors the User struct of the storage package. -/
structure User where
  id : Int
  login : String
  password : String
  userID : String
deriving DecidableEq

/-- JSONUserFS mirrors the per-line JSON record of the users file. -/
structure JSONUserFS where
  id : Int
  login : String
  password : String
  userID : String
deriving DecidableEq

/-- userToJSON is the marshalling step of FileStorage.CreateUser. -/
def userToJSON (u : User) : JSONUserFS :=
  { id := u.id, login := u.login, password := u.password, userID := u.userID }

/-- userOfJSON is the unmarshalling step of loadUsersFromFile. -/
def userOfJSON (j : JSONUserFS) : User :=
  { id := j.id, login := j.login, password := j.password, userID := j.userID }

/-- RefreshRec is the anonymous struct stored per refresh token. -/
structure RefreshRec where
  userID : String
  expiresAt : Int
  revoked : Bool
deriving DecidableEq

/-- StorageErr enumerates the distinct error values returned by the two
storage realizations. -/
inductive StorageErr where
  | userAlreadyExists
  | userNotFound
  | usersFileNotOpened
  | writeError
  | profileNotFound
  | refreshTokenNotFound
  | dbError
deriving DecidableEq

/-- lookupA is map read on an association list, returning the first
binding of the key, as a Go map read does for its unique binding. -/
def lookupA {α : Type} : List (String × α) → String → Option α
  | [], _ => none
  | (k, v) :: rest, key => if k = key then some v else lookupA rest key

/-- setA is Go map assignment: replace the first binding of the key, or
append a new binding when the key is absent. -/
def setA {α : Type} : List (String × α) → String → α → List (String × α)
  | [], key, v => [(key, v)]
  | (k, w) :: rest, key, v =>
      if k = key then (key, v) :: rest else (k, w) :: setA rest key v

/-- FileStorage mirrors the file-backed storage state: whether the
users file handle is non-nil, the lines of the users file, and the
three in-memory maps. -/
structure FileStorage where
  fileOpen : Bool
  fileLines : List JSONUserFS
  users : List (String × User)
  profiles : List (String × String)
  refresh : List (String × RefreshRec)
deriving DecidableEq

/-- GetUserByLogin of the file realization. -/
def FileStorage.GetUserByLogin (f : FileStorage) (login : String) :
    Except StorageErr User :=
  match lookupA f.users login with
  | some u => .ok u
  | none => .error .userNotFound

/-- CreateUser of the file realization. The duplicate check comes
first; the user is inserted into the in-memory map before the nil
check on the file handle and before the buffered write, whose success
is the writeOk parameter. -/
def FileStorage.CreateUser (f : FileStorage) (user : User) (writeOk : Bool) :
    FileStorage × Except StorageErr Unit :=
  match lookupA f.users user.login with
  | some _ => (f, .error .userAlreadyExists)
  | none =>
      let f1 : FileStorage := { f with users := setA f.users user.login user }
      if f1.fileOpen = false then (f1, .error .usersFileNotOpened)
      else if writeOk = false then (f1, .error .writeError)
      else ({ f1 with fileLines := f1.fileLines ++ [userToJSON user] }, .ok ())

/-- SetUserProfile of the file realization. -/
def FileStorage.SetUserProfile (f : FileStorage) (userID email : String) :
    FileStorage × Except StorageErr Unit :=
  ({ f with profiles := setA f.profiles userID email }, .ok ())

/-- GetUserProfile of the file realization. -/
def FileStorage.GetUserProfile (f : FileStorage) (userID : String) :
    Except StorageErr String :=
  match lookupA f.profiles userID with
  | some email => .ok email
  | none => .error .profileNotFound

/-- CreateRefreshToken of the file realization: an unconditional map
assignment, with no collision check. -/
def FileStorage.CreateRefreshToken (f : FileStorage)
    (token userID : String) (expiresAt : Int) :
    FileStorage × Except StorageErr Unit :=
  ({ f with refresh := setA f.refresh token ⟨userID, expiresAt, false⟩ }, .ok ())

/-- GetRefreshToken of the file realization. -/
def FileStorage.GetRefreshToken (f : FileStorage) (token : String) :
    Except StorageErr RefreshRec :=
  match lookupA f.refresh token with
  | some r => .ok r
  | none => .error .refreshTokenNotFound

/-- RevokeRefreshToken of the file realization: set the revoked flag
when the token is present, otherwise report it missing. -/
def FileStorage.RevokeRefreshToken (f : FileStorage) (token : String) :
    FileStorage × Except StorageErr Unit :=
  match lookupA f.refresh token with
  | some r =>
      ({ f with refresh := setA f.refresh token { r with revoked := true } }, .ok ())
  | none => (f, .error .refreshTokenNotFound)

/-- DeleteExpiredRefreshTokens of the file realization: drop every
entry with now.After(expiresAt), that is with expiresAt < now. -/
def FileStorage.DeleteExpiredRefreshTokens (f : FileStorage) (now : Int) :
    FileStorage × Except StorageErr Unit :=
  ({ f with refresh := f.refresh.filter (fun kv => decide (¬ kv.2.expiresAt < now)) },
   .ok ())

/-- loadUsersFromFile replays the users file line by line into the
in-memory map, later lines overwriting earlier ones. -/
def loadUsersFromFile (lines : List JSONUserFS) : List (String × User) :=
  lines.foldl (fun m j => setA m j.login (userOfJSON j)) []

/-- reload models constructing a fresh FileStorage over the same users
file: the file is replayed into the users map, while profiles and
refresh tokens start empty. -/
def FileStorage.reload (f : FileStorage) : FileStorage :=
  { fileOpen := true, fileLines := f.fileLines,
    users := loadUsersFromFile f.fileLines, profiles := [], refresh := [] }

/-- emptyFS is a freshly constructed file storage over an empty file. -/
def emptyFS : FileStorage :=
  { fileOpen := true, fileLines := [], users := [], profiles := [], refresh := [] }

/-- DB mirrors the PostgreSQL realization: three tables with their key
columns (users keyed by the unique login, profiles by user id, and
refresh_tokens by the token, its primary key). -/
structure DB where
  users : List (String × User)
  profiles : List (String × String)
  refresh : List (String × RefreshRec)
deriving DecidableEq

/-- CreateRefreshToken of the db realization: a bare INSERT, so a SQL
error (execOk false) or a primary-key collision on the token makes the
Exec fail with a wrapped database error and changes nothing. -/
def DB.CreateRefreshToken (d : DB) (token userID : String) (expiresAt : Int)
    (execOk : Bool) : DB × Except StorageErr Unit :=
  if execOk = false then (d, .error .dbError)
  else
    match lookupA d.refresh token with
    | some _ => (d, .error .dbError)
    | none =>
        ({ d with refresh := setA d.refresh token ⟨userID, expiresAt, false⟩ }, .ok ())

/-- GetRefreshToken of the db realization. -/
def DB.GetRefreshToken (d : DB) (token : String) : Except StorageErr RefreshRec :=
  match lookupA d.refresh token with
  | some r => .ok r
  | none => .error .refreshTokenNotFound

/-- revokeRow flips the revoked flag of every row whose token column
matches, as the UPDATE statement does. -/
def revokeRow (token : String) (kv : String × RefreshRec) : String × RefreshRec :=
  if kv.1 = token then (kv.1, { kv.2 with revoked := true }) else kv

/-- RevokeRefreshToken of the db realization: UPDATE ... WHERE token,
which succeeds even when zero rows match. -/
def DB.RevokeRefreshToken (d : DB) (token : String) (execOk : Bool) :
    DB × Except StorageErr Unit :=
  if execOk = false then (d, .error .dbError)
  else ({ d with refresh := d.refresh.map (revokeRow token) }, .ok ())

/-- DeleteExpiredRefreshTokens of the db realization: DELETE rows with
expires_at < NOW(). -/
def DB.DeleteExpiredRefreshTokens (d : DB) (now : Int) (execOk : Bool) :
    DB × Except StorageErr Unit :=
  if execOk = false then (d, .error .dbError)
  else ({ d with refresh := d.refresh.filter (fun kv => decide (¬ kv.2.expiresAt < now)) },
        .ok ())

/-- RefreshResult enumerates the outcomes of the token refresh
endpoint as seen by the caller. -/
inductive RefreshResult where
  | badRequest
  | invalidToken
  | ok (newRefreshToken : String)
deriving DecidableEq

/-- refreshSession is the token refresh handler of cmd/auth/main.go
over the file realization: reject an empty token as a bad request,
fetch the presented token, reject when absent, revoked, or when
now.After(expiresAt); otherwise revoke the presented token and create
a brand-new one, discarding the error of both storage calls. newRT
models the freshly generated UUID string. -/
def refreshSession (f : FileStorage) (reqToken : String) (now : Int)
    (newRT : String) (ttl : Int) : FileStorage × RefreshResult :=
  if reqToken = "" then (f, .badRequest)
  else
    match f.GetRefreshToken reqToken with
    | .error _ => (f, .invalidToken)
    | .ok r =>
        if r.revoked = true ∨ r.expiresAt < now then (f, .invalidToken)
        else
          let f1 := (f.RevokeRefreshToken reqToken).1
          let f2 := (f1.CreateRefreshToken newRT r.userID (now + ttl)).1
          (f2, .ok newRT)

/-- refreshSessionDB is the same handler over the db realization, with
the success of the two SQL Exec calls made explicit; the handler
discards the error of both, so a failed revoke does not stop it. -/
def refreshSessionDB (d : DB) (reqToken : String) (now : Int)
    (newRT : String) (ttl : Int) (revokeExecOk createExecOk : Bool) :
    DB × RefreshResult :=
  if reqToken = "" then (d, .badRequest)
  else
    match d.GetRefreshToken reqToken with
    | .error _ => (d, .invalidToken)
    | .ok r =>
        if r.revoked = true ∨ r.expiresAt < now then (d, .invalidToken)
        else
          let d1 := (d.RevokeRefreshToken reqToken revokeExecOk).1
          let d2 := (d1.CreateRefreshToken newRT r.userID (now + ttl) createExecOk).1
          (d2, .ok newRT)

/-- LogoutResult enumerates the outcomes of the logout endpoint. -/
inductive LogoutResult where
  | badRequest
  | noContent
deriving DecidableEq

/-- logout is the logout handler of cmd/auth/main.go over the file
realization: reject an empty token as a bad request, otherwise revoke
it, discard the error, and answer 204 No Content. -/
def logout (f : FileStorage) (reqToken : String) : FileStorage × LogoutResult :=
  if reqToken = "" then (f, .badRequest)
  else ((f.RevokeRefreshToken reqToken).1, .noContent)

/-- TokOp is one mutating refresh-token storage call on the file
realization (GetRefreshToken reads without mutating the state, so a
read fits anywhere in a sequence without effect). -/
inductive TokOp where
  | create (token userID : String) (expiresAt : Int)
  | revoke (token : String)
  | deleteExpired (now : Int)
deriving DecidableEq

/-- applyTokOp runs one refresh-token storage call for its state
effect. -/
def applyTokOp (f : FileStorage) : TokOp → FileStorage
  | .create t u e => (f.CreateRefreshToken t u e).1
  | .revoke t => (f.RevokeRefreshToken t).1
  | .deleteExpired now => (f.DeleteExpiredRefreshTokens now).1

/-- applyTokOps runs a sequence of refresh-token storage calls. -/
def applyTokOps (f : FileStorage) (ops : List TokOp) : FileStorage :=
  ops.foldl applyTokOp f

/-- regAll registers a sequence of users through CreateUser on the
file realization, every file write succeeding. -/
def regAll (f : FileStorage) (us : List User) : FileStorage :=
  us.foldl (fun g u => (g.CreateUser u true).1) f

/-! Helper lemmas about the association-list map operations. -/

theorem lookupA_setA {α : Type} (m : List (String × α)) (k : String) (v : α)
    (key : String) :
    lookupA (setA m k v) key = if k = key then some v else lookupA m key := by
  induction m with
  | nil => by_cases h : k = key <;> simp [setA, lookupA, h]
  | cons p rest ih =>
      obtain ⟨k1, v1⟩ := p
      by_cases h1 : k1 = k
      · subst h1
        by_cases h2 : k1 = key <;> simp [setA, lookupA, h2]
      · by_cases h2 : k1 = key
        · subst h2
          have hk : ¬ k = k1 := fun h => h1 h.symm
          simp [setA, lookupA, h1, hk]
        · simp [setA, lookupA, h1, h2, ih]

theorem mem_setA {α : Type} {m : List (String × α)} {k : String} {v : α}
    {p : String × α} (hp : p ∈ setA m k v) : p = (k, v) ∨ p ∈ m := by
  induction m with
  | nil => simpa [setA] using hp
  | cons q rest ih =>
      obtain ⟨k1, v1⟩ := q
      by_cases h1 : k1 = k
      · simp only [setA, h1, if_pos rfl] at hp
        rcases List.mem_cons.mp hp with h | h
        · exact Or.inl h
        · exact Or.inr (List.mem_cons_of_mem _ h)
      · simp only [setA, h1, if_neg h1] at hp
        rcases List.mem_cons.mp hp with h | h
        · exact Or.inr (by simp [h])
        · rcases ih h with h2 | h2
          · exact Or.inl h2
          · exact Or.inr (List.mem_cons_of_mem _ h2)

theorem mem_of_lookupA {α : Type} {m : List (String × α)} {k : String} {v : α}
    (h : lookupA m k = some v) : (k, v) ∈ m := by
  induction m with
  | nil => simp [lookupA] at h
  | cons q rest ih =>
      obtain ⟨k1, v1⟩ := q
      by_cases h1 : k1 = k
      · subst h1
        simp only [lookupA, if_true, eq_self_iff_true, Option.some.injEq] at h
        subst h
        exact List.mem_cons_self _ _
      · simp only [lookupA, if_neg h1] at h
        exact List.mem_cons_of_mem _ (ih h)

theorem lookupA_eq_none_of_not_mem {α : Type} {m : List (String × α)} {k : String}
    (h : k ∉ m.map Prod.fst) : lookupA m k = none := by
  induction m with
  | nil => rfl
  | cons q rest ih =>
      obtain ⟨k1, v1⟩ := q
      simp only [List.map_cons, List.mem_cons] at h
      push_neg at h
      have h1 : ¬ k1 = k := fun he => h.1 he.symm
      simp [lookupA, h1, ih h.2]

theorem lookupA_of_mem {α : Type} {m : List (String × α)}
    (hnd : (m.map Prod.fst).Nodup) {p : String × α} (hp : p ∈ m) :
    lookupA m p.1 = some p.2 := by
  induction m with
  | nil => simp at hp
  | cons q rest ih =>
      obtain ⟨k1, v1⟩ := q
      simp only [List.map_cons, List.nodup_cons] at hnd
      rcases List.mem_cons.mp hp with h | h
      · subst h
        simp [lookupA]
      · have hk : ¬ k1 = p.1 := by
          intro he
          exact hnd.1 (he ▸ (List.mem_map_of_mem Prod.fst h))
        simp [lookupA, hk, ih hnd.2 h]

theorem setA_eq_of_lookupA {α : Type} {m : List (String × α)} {k : String} {v : α}
    (h : lookupA m k = some v) : setA m k v = m := by
  induction m with
  | nil => simp [lookupA] at h
  | cons q rest ih =>
      obtain ⟨k1, v1⟩ := q
      by_cases h1 : k1 = k
      · subst h1
        simp only [lookupA, if_true, eq_self_iff_true, Option.some.injEq] at h
        subst h
        simp [setA]
      · simp only [lookupA, if_neg h1] at h
        simp [setA, h1, ih h]

theorem lookupA_filter {α : Type} {m : List (String × α)}
    (hnd : (m.map Prod.fst).Nodup) (p : String × α → Bool) (k : String) :
    lookupA (m.filter p) k =
      match lookupA m k with
      | some v => if p (k, v) then some v else none
      | none => none := by
  induction m with
  | nil => rfl
  | cons q rest ih =>
      obtain ⟨k1, v1⟩ := q
      simp only [List.map_cons, List.nodup_cons] at hnd
      by_cases h1 : k1 = k
      · subst h1
        have hnone : lookupA (rest.filter p) k1 = none := by
          apply lookupA_eq_none_of_not_mem
          intro hmem
          apply hnd.1
          rcases List.mem_map.mp hmem with ⟨q2, hq2, hfst⟩
          exact hfst ▸ List.mem_map_of_mem Prod.fst (List.mem_of_mem_filter hq2)
        by_cases hp : p (k1, v1)
        · simp [List.filter_cons, hp, lookupA]
        · simp only [List.filter_cons]
          simp only [hp, Bool.false_eq_true, if_neg, ite_false]
          simp [lookupA, hnone, hp]
      · by_cases hp : p (k1, v1)
        · simp [List.filter_cons, hp, lookupA, h1, ih hnd.2]
        · simp only [List.filter_cons]
          simp only [hp, Bool.false_eq_true, ite_false]
          simp [lookupA, h1, ih hnd.2]

theorem revokeRow_eq (v : RefreshRec) (t : String) :
    revokeRow t (t, v) = (t, { v with revoked := true }) := by
  unfold revokeRow
  simp

theorem revokeRow_ne {k t : String} (v : RefreshRec) (h : ¬ k = t) :
    revokeRow t (k, v) = (k, v) := by
  unfold revokeRow
  simp [h]

theorem lookupA_map_revokeRow (m : List (String × RefreshRec)) (t k : String) :
    lookupA (m.map (revokeRow t)) k =
      (lookupA m k).map (fun r => if k = t then { r with revoked := true } else r) := by
  induction m with
  | nil => rfl
  | cons q rest ih =>
      obtain ⟨k1, v1⟩ := q
      simp only [List.map_cons]
      by_cases h2 : k1 = t
      · subst h2
        rw [revokeRow_eq]
        by_cases h1 : k1 = k
        · subst h1
          simp [lookupA]
        · simp [lookupA, h1, ih]
      · rw [revokeRow_ne v1 h2]
        by_cases h1 : k1 = k
        · subst h1
          simp [lookupA, h2]
        · simp [lookupA, h1, ih]

/-! Claim C1: rotation invalidates reuse of the presented token. -/

theorem refreshSession_of_revoked (g : FileStorage) (rt newRT : String)
    (r : RefreshRec) (now ttl : Int) (hne : rt ≠ "")
    (hlk : lookupA g.refresh rt = some r) (hrev : r.revoked = true) :
    (refreshSession g rt now newRT ttl).2 = RefreshResult.invalidToken := by
  have hget : g.GetRefreshToken rt = .ok r := by
    simp [FileStorage.GetRefreshToken, hlk]
  simp [refreshSession, hne, hget, hrev]

/-- C1: for every refresh token rt that is stored, not revoked, and not
expired at the current time, a successful refreshSession revokes rt
while installing a distinct replacement, so a second refreshSession
presenting the same original token rt yields InvalidToken. -/
theorem C1_rotation_blocks_reuse (f : FileStorage) (rt newRT newRT2 : String)
    (r : RefreshRec) (now ttl now2 ttl2 : Int)
    (hne : rt ≠ "") (hlk : lookupA f.refresh rt = some r)
    (hrev : r.revoked = false) (hexp : ¬ r.expiresAt < now)
    (hfresh : newRT ≠ rt) :
    (refreshSession f rt now newRT ttl).2 = RefreshResult.ok newRT ∧
    (refreshSession (refreshSession f rt now newRT ttl).1 rt now2 newRT2 ttl2).2 =
      RefreshResult.invalidToken := by
  have hget : f.GetRefreshToken rt = .ok r := by
    simp [FileStorage.GetRefreshToken, hlk]
  constructor
  · simp [refreshSession, hne, hget, hrev, hexp]
  · have hstate : (refreshSession f rt now newRT ttl).1.refresh =
        setA (setA f.refresh rt { r with revoked := true }) newRT
          ⟨r.userID, now + ttl, false⟩ := by
      simp [refreshSession, hne, hget, hrev, hexp, FileStorage.RevokeRefreshToken,
        hlk, FileStorage.CreateRefreshToken]
    have hlk2 : lookupA (refreshSession f rt now newRT ttl).1.refresh rt =
        some { r with revoked := true } := by
      rw [hstate, lookupA_setA, if_neg hfresh, lookupA_setA, if_pos rfl]
    exact refreshSession_of_revoked _ rt newRT2 _ now2 ttl2 hne hlk2 rfl

/-- c1state holds one live refresh token. -/
def c1state : FileStorage :=
  { emptyFS with refresh := [("rt0", ⟨"u0", 100, false⟩)] }

/-- C1 witness: the rotation property evaluated at a concrete stored
token. -/
theorem C1_rotation_blocks_reuse_witness :
    (refreshSession c1state "rt0" 50 "n0" 10).2 = RefreshResult.ok "n0" ∧
    (refreshSession (refreshSession c1state "rt0" 50 "n0" 10).1 "rt0" 60 "n1" 10).2 =
      RefreshResult.invalidToken :=
  C1_rotation_blocks_reuse c1state "rt0" "n0" "n1" ⟨"u0", 100, false⟩ 50 10 60 10
    (by decide) rfl rfl (by decide) (by decide)

/-! Claim C4: expiry boundary of the refresh check. -/

/-- c4state holds one unrevoked token expiring at time 100. -/
def c4state : FileStorage :=
  { emptyFS with refresh := [("rt4", ⟨"u4", 100, false⟩)] }

/-- C4 counterexample: at the instant now = expiresAt the refresh
endpoint still accepts the token, because the code rejects only when
now.After(expiresAt), a strict comparison, while the claim says the
token is already rejected at now = expiresAt. -/
theorem C4_counterexample :
    (refreshSession c4state "rt4" 100 "n4" 10).2 = RefreshResult.ok "n4" ∧
    (refreshSession c4state "rt4" 100 "n4" 10).2 ≠ RefreshResult.invalidToken := by
  exact ⟨rfl, by decide⟩

/-- C4 (amended): presenting a stored, unrevoked refresh token, the
refresh endpoint yields InvalidToken exactly when the current time is
strictly after expiresAt; at now = expiresAt the token is still
accepted, so validity is now at most expiresAt rather than strictly
before it. -/
theorem C4_expiry_boundary (f : FileStorage) (rt newRT : String) (r : RefreshRec)
    (now ttl : Int) (hne : rt ≠ "") (hlk : lookupA f.refresh rt = some r)
    (hrev : r.revoked = false) :
    ((refreshSession f rt now newRT ttl).2 = RefreshResult.invalidToken ↔
      r.expiresAt < now) ∧
    (refreshSession f rt r.expiresAt newRT ttl).2 = RefreshResult.ok newRT := by
  have hget : f.GetRefreshToken rt = .ok r := by
    simp [FileStorage.GetRefreshToken, hlk]
  constructor
  · by_cases hlt : r.expiresAt < now
    · simp [refreshSession, hne, hget, hrev, hlt]
    · simp [refreshSession, hne, hget, hrev, hlt]
  · simp [refreshSession, hne, hget, hrev]

/-- C4 witness: the amended boundary behavior at concrete times. -/
theorem C4_expiry_boundary_witness :
    (refreshSession c4state "rt4" 101 "n4" 10).2 = RefreshResult.invalidToken ∧
    (refreshSession c4state "rt4" 100 "n4" 10).2 = RefreshResult.ok "n4" := by
  have h := C4_expiry_boundary c4state "rt4" "n4" ⟨"u4", 100, false⟩ 101 10
    (by decide) rfl rfl
  exact ⟨h.1.mpr (by decide), h.2⟩

/-! Claim C2: a revoked token stays revoked under storage operations. -/

/-- allRevokedAt means every stored binding of the token t carries a
true revoked flag. -/
def allRevokedAt (t : String) (f : FileStorage) : Prop :=
  ∀ p ∈ f.refresh, p.1 = t → p.2.revoked = true

/-- opSpares tells whether a storage call avoids presenting the token
t to CreateRefreshToken, whose file-realization overwrite resets the
revoked flag. -/
def opSpares (t : String) : TokOp → Bool
  | .create t2 _ _ => t2 != t
  | .revoke _ => true
  | .deleteExpired _ => true

theorem allRevokedAt_applyTokOp {t : String} {f : FileStorage} {op : TokOp}
    (hQ : allRevokedAt t f) (hop : opSpares t op = true) :
    allRevokedAt t (applyTokOp f op) := by
  cases op with
  | create t2 u e =>
      have ht2 : t2 ≠ t := by simpa [opSpares] using hop
      intro p hp hpt
      have hp2 : p = (t2, ⟨u, e, false⟩) ∨ p ∈ f.refresh := by
        apply mem_setA
        simpa [applyTokOp, FileStorage.CreateRefreshToken] using hp
      rcases hp2 with h | h
      · exact absurd (by rw [← hpt, h]) ht2
      · exact hQ p h hpt
  | revoke t2 =>
      intro p hp hpt
      rcases hl : lookupA f.refresh t2 with _ | r2
      · have : p ∈ f.refresh := by
          simpa [applyTokOp, FileStorage.RevokeRefreshToken, hl] using hp
        exact hQ p this hpt
      · have hp2 : p = (t2, { r2 with revoked := true }) ∨ p ∈ f.refresh := by
          apply mem_setA
          simpa [applyTokOp, FileStorage.RevokeRefreshToken, hl] using hp
        rcases hp2 with h | h
        · rw [h]
        · exact hQ p h hpt
  | deleteExpired now =>
      intro p hp hpt
      have hp2 : p ∈ f.refresh ∧ now ≤ p.2.expiresAt := by
        simpa [applyTokOp, FileStorage.DeleteExpiredRefreshTokens] using hp
      exact hQ p hp2.1 hpt

theorem allRevokedAt_applyTokOps {t : String} {ops : List TokOp} :
    ∀ {f : FileStorage}, allRevokedAt t f → (∀ op ∈ ops, opSpares t op = true) →
      allRevokedAt t (applyTokOps f ops) := by
  induction ops with
  | nil => intro f hQ _; exact hQ
  | cons op rest ih =>
      intro f hQ hops
      have h1 := allRevokedAt_applyTokOp hQ (hops op (List.mem_cons_self _ _))
      have h2 : applyTokOps f (op :: rest) = applyTokOps (applyTokOp f op) rest := by
        simp [applyTokOps]
      rw [h2]
      exact ih h1 (fun o ho => hops o (List.mem_cons_of_mem _ ho))

/-- c2state holds one already-revoked refresh token. -/
def c2state : FileStorage :=
  { emptyFS with refresh := [("t2", ⟨"u2", 50, true⟩)] }

/-- C2 counterexample: the claim admits createRefreshToken among the
subsequent operations, and in the file realization createRefreshToken
on the same token string overwrites the revoked record with a fresh
unrevoked one, so GetRefreshToken reports revoked = false again. -/
theorem C2_counterexample :
    lookupA c2state.refresh "t2" = some ⟨"u2", 50, true⟩ ∧
    lookupA (applyTokOps c2state [TokOp.create "t2" "u2" 99]).refresh "t2" =
      some ⟨"u2", 99, false⟩ := ⟨rfl, rfl⟩

/-- C2 (amended): for every refresh token t stored with revoked = true
in a well-formed file storage, no subsequent sequence of
revokeRefreshToken, deleteExpiredRefreshTokens, getRefreshToken (a
pure read), or createRefreshToken calls on other token strings can
make a lookup of t report revoked = false; only createRefreshToken on
the token t itself resets the flag, by overwriting the record. -/
theorem C2_revoked_persists (f : FileStorage) (t : String) (r : RefreshRec)
    (ops : List TokOp)
    (hnd : (f.refresh.map Prod.fst).Nodup)
    (hlk : lookupA f.refresh t = some r) (hrev : r.revoked = true)
    (hops : ∀ op ∈ ops, opSpares t op = true) :
    ∀ r2, lookupA (applyTokOps f ops).refresh t = some r2 → r2.revoked = true := by
  have hQ : allRevokedAt t f := by
    intro p hp hpt
    have h1 := lookupA_of_mem hnd hp
    rw [hpt, hlk] at h1
    have h2 : p.2 = r := (Option.some.inj h1).symm
    rw [h2]
    exact hrev
  intro r2 hr2
  exact allRevokedAt_applyTokOps hQ hops _ (mem_of_lookupA hr2) rfl

/-- C2 witness: the amended preservation applied to a concrete revoked
token and a concrete sequence of sparing operations. -/
theorem C2_revoked_persists_witness :
    lookupA (applyTokOps c2state
      [TokOp.revoke "t2", TokOp.create "o2" "u9" 99, TokOp.deleteExpired 10]).refresh
      "t2" = some ⟨"u2", 50, true⟩ ∧
    (⟨"u2", 50, true⟩ : RefreshRec).revoked = true := by
  refine ⟨rfl, ?_⟩
  exact C2_revoked_persists c2state "t2" ⟨"u2", 50, true⟩
    [TokOp.revoke "t2", TokOp.create "o2" "u9" 99, TokOp.deleteExpired 10]
    (by decide) rfl rfl (by decide) ⟨"u2", 50, true⟩ rfl

/-! Claim C3: createRefreshToken on a token collision. -/

/-- c3state holds one already-present (revoked) refresh token. -/
def c3state : FileStorage :=
  { emptyFS with refresh := [("t3", ⟨"u3", 80, true⟩)] }

/-- C3 counterexample: in the file realization CreateRefreshToken on an
already-present token string reports success and overwrites the stored
record instead of failing with AlreadyExists and leaving it unchanged. -/
theorem C3_counterexample :
    lookupA c3state.refresh "t3" = some ⟨"u3", 80, true⟩ ∧
    (c3state.CreateRefreshToken "t3" "u9" 99).2 = .ok () ∧
    lookupA (c3state.CreateRefreshToken "t3" "u9" 99).1.refresh "t3" =
      some ⟨"u9", 99, false⟩ := ⟨rfl, rfl, rfl⟩

/-- C3 (amended): on a token collision the db realization fails (the
INSERT hits the primary key and the wrapped database error is
returned) and leaves the store unchanged, but the file realization
succeeds and silently overwrites the stored record with the new
unrevoked one. -/
theorem C3_create_collision (d : DB) (f : FileStorage) (tok uid : String)
    (ex : Int) (rd rf : RefreshRec)
    (hd : lookupA d.refresh tok = some rd)
    (hf : lookupA f.refresh tok = some rf) :
    d.CreateRefreshToken tok uid ex true = (d, .error .dbError) ∧
    (f.CreateRefreshToken tok uid ex).2 = .ok () ∧
    lookupA (f.CreateRefreshToken tok uid ex).1.refresh tok =
      some ⟨uid, ex, false⟩ := by
  refine ⟨?_, rfl, ?_⟩
  · simp [DB.CreateRefreshToken, hd]
  · simp [FileStorage.CreateRefreshToken, lookupA_setA]

/-- c3db holds the same already-present refresh token in the db
realization. -/
def c3db : DB :=
  { users := [], profiles := [], refresh := [("t3", ⟨"u3", 80, true⟩)] }

/-- C3 witness: the amended collision behavior at a concrete token. -/
theorem C3_create_collision_witness :
    c3db.CreateRefreshToken "t3" "u9" 99 true = (c3db, .error .dbError) ∧
    (c3state.CreateRefreshToken "t3" "u9" 99).2 = .ok () ∧
    lookupA (c3state.CreateRefreshToken "t3" "u9" 99).1.refresh "t3" =
      some ⟨"u9", 99, false⟩ :=
  C3_create_collision c3db c3state "t3" "u9" 99 ⟨"u3", 80, true⟩ ⟨"u3", 80, true⟩
    rfl rfl

/-! Claim C5: revokeRefreshToken across the two realizations. -/

theorem RefreshRec.set_revoked_self {r : RefreshRec} (h : r.revoked = true) :
    { r with revoked := true } = r := by
  cases r
  simp_all

/-- emptyDB is the db realization with all tables empty. -/
def emptyDB : DB := { users := [], profiles := [], refresh := [] }

/-- C5 counterexample: on the db realization, revoking an unknown token
succeeds (the UPDATE matches zero rows and the Exec reports no error)
instead of failing with NotFound, so the two realizations do not
behave uniformly. -/
theorem C5_counterexample :
    lookupA emptyDB.refresh "t5" = none ∧
    (DB.RevokeRefreshToken emptyDB "t5" true).2 = .ok () := ⟨rfl, rfl⟩

/-- C5 (amended): revokeRefreshToken sets the revoked flag and is
idempotent on an already-revoked token in both realizations, but only
the file realization fails with NotFound on an unknown token; the db
realization reports success for unknown tokens since its UPDATE
matches zero rows. -/
theorem C5_revoke_semantics (f : FileStorage) (d : DB) (t : String)
    (r rd : RefreshRec)
    (hf : lookupA f.refresh t = some r) (hd : lookupA d.refresh t = some rd) :
    ((f.RevokeRefreshToken t).2 = .ok () ∧
      lookupA (f.RevokeRefreshToken t).1.refresh t =
        some { r with revoked := true }) ∧
    (r.revoked = true → (f.RevokeRefreshToken t).1 = f) ∧
    (∀ g : FileStorage, ∀ t2 : String, lookupA g.refresh t2 = none →
      g.RevokeRefreshToken t2 = (g, .error .refreshTokenNotFound)) ∧
    ((d.RevokeRefreshToken t true).2 = .ok () ∧
      lookupA (d.RevokeRefreshToken t true).1.refresh t =
        some { rd with revoked := true }) ∧
    (∀ e : DB, ∀ t2 : String, lookupA e.refresh t2 = none →
      (e.RevokeRefreshToken t2 true).2 = .ok ()) ∧
    (rd.revoked = true →
      ∀ k, lookupA (d.RevokeRefreshToken t true).1.refresh k =
        lookupA d.refresh k) := by
  refine ⟨⟨?_, ?_⟩, ?_, ?_, ⟨?_, ?_⟩, ?_, ?_⟩
  · simp [FileStorage.RevokeRefreshToken, hf]
  · simp [FileStorage.RevokeRefreshToken, hf, lookupA_setA]
  · intro hr
    have h1 : { r with revoked := true } = r := RefreshRec.set_revoked_self hr
    simp [FileStorage.RevokeRefreshToken, hf, h1, setA_eq_of_lookupA hf]
  · intro g t2 hg
    simp [FileStorage.RevokeRefreshToken, hg]
  · simp [DB.RevokeRefreshToken]
  · simp [DB.RevokeRefreshToken, lookupA_map_revokeRow, hd]
  · intro e t2 he
    simp [DB.RevokeRefreshToken]
  · intro hr k
    have h1 : { rd with revoked := true } = rd := RefreshRec.set_revoked_self hr
    by_cases hk : k = t
    · subst hk
      simp [DB.RevokeRefreshToken, lookupA_map_revokeRow, hd, h1]
    · simp [DB.RevokeRefreshToken, lookupA_map_revokeRow, hk]

/-- C5 witness: the amended revoke semantics at a concrete revoked
token present in both realizations. -/
theorem C5_revoke_semantics_witness :
    (c3state.RevokeRefreshToken "t3").2 = .ok () ∧
    (c3db.RevokeRefreshToken "t3" true).2 = .ok () ∧
    (c3state.RevokeRefreshToken "t3").1 = c3state := by
  have h := C5_revoke_semantics c3state c3db "t3" ⟨"u3", 80, true⟩ ⟨"u3", 80, true⟩
    rfl rfl
  exact ⟨h.1.1, h.2.2.2.1.1, h.2.1 rfl⟩

/-! Claim C6: logout from the caller's perspective. -/

/-- C6 counterexample: presenting the empty refresh token to the
logout endpoint is answered with 400 Invalid request, not success, so
logout does not report success for every input token. -/
theorem C6_counterexample :
    (logout emptyFS "").2 = LogoutResult.badRequest ∧
    (logout emptyFS "").2 ≠ LogoutResult.noContent := ⟨rfl, by decide⟩

/-- C6 (amended): for every nonempty refresh token and every storage
state, the logout endpoint answers 204 No Content: unknown,
already-revoked, or otherwise invalid tokens are not an error, and the
discarded revocation failure is never surfaced; only the empty token
is rejected as a bad request before revocation is attempted. -/
theorem C6_logout_succeeds (f : FileStorage) (t : String) (h : t ≠ "") :
    (logout f t).2 = LogoutResult.noContent := by
  simp [logout, h]

/-- C6 witness: logout of a token unknown to an empty store still
reports success. -/
theorem C6_logout_succeeds_witness :
    (logout emptyFS "x").2 = LogoutResult.noContent :=
  C6_logout_succeeds emptyFS "x" (by decide)

/-! Claim C7: the users file replays to the registered users. -/

theorem loadUsersFromFile_append (l : List JSONUserFS) (j : JSONUserFS) :
    loadUsersFromFile (l ++ [j]) =
      setA (loadUsersFromFile l) j.login (userOfJSON j) := by
  simp [loadUsersFromFile, List.foldl_append]

theorem userOfJSON_userToJSON (u : User) : userOfJSON (userToJSON u) = u := rfl

theorem regAll_users_eq_load (us : List User) :
    ∀ f : FileStorage, f.fileOpen = true →
      f.users = loadUsersFromFile f.fileLines →
      (regAll f us).fileOpen = true ∧
      (regAll f us).users = loadUsersFromFile (regAll f us).fileLines := by
  induction us with
  | nil => intro f h1 h2; exact ⟨h1, h2⟩
  | cons u rest ih =>
      intro f h1 h2
      have hstep : regAll f (u :: rest) = regAll ((f.CreateUser u true).1) rest := by
        simp [regAll]
      rw [hstep]
      rcases hl : lookupA f.users u.login with _ | u0
      · have hg : (f.CreateUser u true).1 =
            { f with users := setA f.users u.login u,
                     fileLines := f.fileLines ++ [userToJSON u] } := by
          simp [FileStorage.CreateUser, hl, h1]
        apply ih
        · rw [hg]
          exact h1
        · rw [hg]
          show setA f.users u.login u =
            loadUsersFromFile (f.fileLines ++ [userToJSON u])
          rw [loadUsersFromFile_append, userOfJSON_userToJSON, h2]
          rfl
      · have hg : (f.CreateUser u true).1 = f := by
          simp [FileStorage.CreateUser, hl]
        rw [hg]
        exact ih f h1 h2

/-- C7: registering any sequence of users through CreateUser of the
file realization starting from a fresh storage and then constructing a
new FileStorage over the same users file (replaying it line by line)
yields, for every login, the same GetUserByLogin result as the
original storage, so each registered user record round-trips exactly. -/
theorem C7_reload_roundtrip (us : List User) (login : String) :
    ((regAll emptyFS us).reload).GetUserByLogin login =
      (regAll emptyFS us).GetUserByLogin login := by
  have h := regAll_users_eq_load us emptyFS rfl rfl
  have h2 : ((regAll emptyFS us).reload).users = (regAll emptyFS us).users := by
    simp [FileStorage.reload]
    exact h.2.symm
  simp [FileStorage.GetUserByLogin, h2]

/-! Claim C8: the expiry sweep of the file realization. -/

/-- C8: DeleteExpiredRefreshTokens on the file realization never
fails, removes exactly the stored tokens whose expiresAt is strictly
earlier than the current time while leaving every other token
unchanged, and an immediate second run at the same time is the
identity on the already swept state. -/
theorem C8_deleteExpired_spec (f : FileStorage) (now : Int)
    (hnd : (f.refresh.map Prod.fst).Nodup) :
    (f.DeleteExpiredRefreshTokens now).2 = .ok () ∧
    (∀ t, lookupA (f.DeleteExpiredRefreshTokens now).1.refresh t =
      match lookupA f.refresh t with
      | some r => if r.expiresAt < now then none else some r
      | none => none) ∧
    ((f.DeleteExpiredRefreshTokens now).1.DeleteExpiredRefreshTokens now).1 =
      (f.DeleteExpiredRefreshTokens now).1 := by
  refine ⟨rfl, ?_, ?_⟩
  · intro t
    have h1 : (f.DeleteExpiredRefreshTokens now).1.refresh =
        f.refresh.filter (fun kv => decide (¬ kv.2.expiresAt < now)) := rfl
    rw [h1, lookupA_filter hnd]
    rcases hl : lookupA f.refresh t with _ | r
    · rfl
    · by_cases hlt : r.expiresAt < now <;> simp [hlt]
  · have hff : (f.refresh.filter (fun kv => decide (¬ kv.2.expiresAt < now))).filter
        (fun kv => decide (¬ kv.2.expiresAt < now)) =
        f.refresh.filter (fun kv => decide (¬ kv.2.expiresAt < now)) := by
      rw [List.filter_filter]
      simp
    simp only [FileStorage.DeleteExpiredRefreshTokens]
    rw [FileStorage.mk.injEq]
    exact ⟨rfl, rfl, rfl, rfl, hff⟩

/-- c8state holds one expired and one live token at time 100. -/
def c8state : FileStorage :=
  { emptyFS with refresh := [("old", ⟨"u1", 40, false⟩), ("live", ⟨"u1", 150, false⟩)] }

/-- C8 witness: the sweep at a concrete state removes the expired
token, keeps the live one, reports success, and is idempotent. -/
theorem C8_deleteExpired_spec_witness :
    (c8state.DeleteExpiredRefreshTokens 100).2 = .ok () ∧
    lookupA (c8state.DeleteExpiredRefreshTokens 100).1.refresh "old" = none ∧
    lookupA (c8state.DeleteExpiredRefreshTokens 100).1.refresh "live" =
      some ⟨"u1", 150, false⟩ ∧
    ((c8state.DeleteExpiredRefreshTokens 100).1.DeleteExpiredRefreshTokens 100).1 =
      (c8state.DeleteExpiredRefreshTokens 100).1 := by
  have h := C8_deleteExpired_spec c8state 100 (by decide)
  refine ⟨h.1, ?_, ?_, h.2.2⟩
  · have h2 := h.2.1 "old"
    simpa using h2
  · have h2 := h.2.1 "live"
    simpa using h2

/-! Claim C9: CreateUser of the file realization is not atomic. -/

/-- C9: when the login is free but the file step fails (nil users file
handle, or a failed append or flush), CreateUser returns an error yet
has already inserted the user into the in-memory map, so a subsequent
GetUserByLogin succeeds and a retry of CreateUser fails with the
already-exists error. -/
theorem C9_createUser_not_atomic (f : FileStorage) (u : User)
    (writeOk writeOk2 : Bool)
    (habs : lookupA f.users u.login = none)
    (hfail : f.fileOpen = false ∨ writeOk = false) :
    ((f.CreateUser u writeOk).2 = .error .usersFileNotOpened ∨
      (f.CreateUser u writeOk).2 = .error .writeError) ∧
    (f.CreateUser u writeOk).1.GetUserByLogin u.login = .ok u ∧
    ((f.CreateUser u writeOk).1.CreateUser u writeOk2).2 =
      .error .userAlreadyExists := by
  by_cases hopen : f.fileOpen = false
  · refine ⟨Or.inl ?_, ?_, ?_⟩
    · simp [FileStorage.CreateUser, habs, hopen]
    · simp [FileStorage.CreateUser, habs, hopen, FileStorage.GetUserByLogin,
        lookupA_setA]
    · simp [FileStorage.CreateUser, habs, hopen, lookupA_setA]
  · have hw : writeOk = false := by
      rcases hfail with h | h
      · exact absurd h hopen
      · exact h
    refine ⟨Or.inr ?_, ?_, ?_⟩
    · simp [FileStorage.CreateUser, habs, hopen, hw]
    · simp [FileStorage.CreateUser, habs, hopen, hw, FileStorage.GetUserByLogin,
        lookupA_setA]
    · simp [FileStorage.CreateUser, habs, hopen, hw, lookupA_setA]

/-- c9state is a storage whose users file handle is nil. -/
def c9state : FileStorage :=
  { fileOpen := false, fileLines := [], users := [], profiles := [], refresh := [] }

/-- C9 witness: the non-atomicity at a concrete user and a nil file
handle. -/
theorem C9_createUser_not_atomic_witness :
    ((c9state.CreateUser ⟨1, "u1", "pw", "id1"⟩ true).2 =
        .error .usersFileNotOpened ∨
      (c9state.CreateUser ⟨1, "u1", "pw", "id1"⟩ true).2 = .error .writeError) ∧
    (c9state.CreateUser ⟨1, "u1", "pw", "id1"⟩ true).1.GetUserByLogin "u1" =
      .ok ⟨1, "u1", "pw", "id1"⟩ ∧
    ((c9state.CreateUser ⟨1, "u1", "pw", "id1"⟩ true).1.CreateUser
        ⟨1, "u1", "pw", "id1"⟩ true).2 = .error .userAlreadyExists :=
  C9_createUser_not_atomic c9state ⟨1, "u1", "pw", "id1"⟩ true true rfl (Or.inl rfl)

/-! Claim C10: the refresh endpoint discards the revocation error. -/

/-- C10: on the refresh endpoint over the db realization, when the
presented token passes the validity check but the revoking UPDATE
fails, the handler still creates and returns a brand-new refresh
token, leaving the old token unrevoked: both the old and the new token
are then stored, unrevoked, and unexpired simultaneously. -/
theorem C10_refresh_discards_revoke_error (d : DB) (rt newRT : String)
    (r : RefreshRec) (now ttl : Int)
    (hne : rt ≠ "") (hlk : lookupA d.refresh rt = some r)
    (hrev : r.revoked = false) (hexp : ¬ r.expiresAt < now)
    (hfresh : lookupA d.refresh newRT = none) (httl : 0 < ttl) :
    (refreshSessionDB d rt now newRT ttl false true).2 = RefreshResult.ok newRT ∧
    lookupA (refreshSessionDB d rt now newRT ttl false true).1.refresh rt =
      some r ∧
    lookupA (refreshSessionDB d rt now newRT ttl false true).1.refresh newRT =
      some ⟨r.userID, now + ttl, false⟩ ∧
    ¬ (now + ttl) < now := by
  have hget : d.GetRefreshToken rt = .ok r := by
    simp [DB.GetRefreshToken, hlk]
  have hnr : newRT ≠ rt := by
    intro h
    rw [h, hlk] at hfresh
    exact Option.noConfusion hfresh
  have hstate : (refreshSessionDB d rt now newRT ttl false true).1.refresh =
      setA d.refresh newRT ⟨r.userID, now + ttl, false⟩ := by
    simp [refreshSessionDB, hne, hget, hrev, hexp, DB.RevokeRefreshToken,
      DB.CreateRefreshToken, hfresh]
  refine ⟨?_, ?_, ?_, ?_⟩
  · simp [refreshSessionDB, hne, hget, hrev, hexp]
  · rw [hstate, lookupA_setA, if_neg hnr, hlk]
  · rw [hstate, lookupA_setA, if_pos rfl]
  · omega

/-- c10db holds one live refresh token in the db realization. -/
def c10db : DB :=
  { users := [], profiles := [], refresh := [("rt1", ⟨"u1", 100, false⟩)] }

/-- C10 witness: the discarded revocation failure at a concrete token,
leaving old and new token active together. -/
theorem C10_refresh_discards_revoke_error_witness :
    (refreshSessionDB c10db "rt1" 50 "n1" 10 false true).2 =
      RefreshResult.ok "n1" ∧
    lookupA (refreshSessionDB c10db "rt1" 50 "n1" 10 false true).1.refresh "rt1" =
      some ⟨"u1", 100, false⟩ ∧
    lookupA (refreshSessionDB c10db "rt1" 50 "n1" 10 false true).1.refresh "n1" =
      some ⟨"u1", 60, false⟩ ∧
    ¬ ((50 : Int) + 10) < 50 :=
  C10_refresh_discards_revoke_error c10db "rt1" "n1" ⟨"u1", 100, false⟩ 50 10
    (by decide) rfl rfl (by decide) rfl (by decide)

end AuthService
